import Mathlib

/-!
Verification of the compile-time route-parameter inference engine of
`express-typed-router` (`src/zod-router.ts`).

The source implements the algorithm twice as TypeScript conditional types:
once for the zod router (lines 235-421) and once, with extra named-wildcard
rules, for the schema router (lines 1680-1915).  Both copies are shallowly
embedded here over `List Char`:

* a TypeScript template-literal check `S extends `${infer A}x${infer B}``
  (with `x` a literal) matches at the leftmost occurrence of `x`, the
  leading placeholder capturing the shortest prefix; this is embedded as
  `splitFirst`;
* a trailing literal (`S extends `${infer A}x``) constrains the suffix and
  is embedded as `dropTail`;
* a leading literal is embedded by direct pattern matching on the char list;
* an intersection of single-key object types is embedded as an append of
  association lists from key (`List Char`) to inferred value type `ParamTy`;
* the conditional-type recursion of `ExtractParams`, which the source
  documents as running "with recursion depth limit", is embedded with an
  explicit fuel argument; every recursive call is on a strictly shorter
  string (proved below), so fuel `length + 1` is never exhausted.
-/

/-- Value type inferred for one route parameter: required `string`,
optional `string`, required `string[]`, optional `string[]`. -/
inductive ParamTy where
  | str
  | optStr
  | strList
  | optStrList
deriving DecidableEq, Repr

/-- An intersection of single-key object types, as an association list. -/
abbrev ParamMap := List (List Char × ParamTy)

/-- If `sep` is a leading literal of `s`, return the remainder of `s`. -/
def dropStart : List Char → List Char → Option (List Char)
  | [], s => some s
  | _ :: _, [] => none
  | c :: cs, d :: ds => if c = d then dropStart cs ds else none

/-- Embedding of `S extends `${infer A}sep${infer B}``: split `s` at the
leftmost occurrence of the literal `sep`. -/
def splitFirst (sep : List Char) : List Char → Option (List Char × List Char)
  | [] => (dropStart sep []).map (fun r => ([], r))
  | c :: rest =>
    match dropStart sep (c :: rest) with
    | some r => some ([], r)
    | none => (splitFirst sep rest).map (fun p => (c :: p.1, p.2))

/-- Embedding of `S extends `${infer A}sfx``: strip a trailing literal. -/
def dropTail (sfx s : List Char) : Option (List Char) :=
  if sfx.isSuffixOf s then some (s.take (s.length - sfx.length)) else none

/-- Embedding of `S extends `${infer N}(${infer C})${infer A}``: the
regex-constraint shape.  The leading placeholder stops at the leftmost
`(`; the constraint stops at the leftmost `)` after it. -/
def matchConstraint (s : List Char) :
    Option (List Char × List Char × List Char) :=
  match splitFirst ['('] s with
  | none => none
  | some (name, r) =>
    match splitFirst [')'] r with
    | none => none
    | some (c, after) => some (name, c, after)

/-- Embedding of `S extends `${infer B}\x7b${infer C}\x7d${infer A}``: the
brace-delimited optional-segment shape. -/
def matchBrace (p : List Char) :
    Option (List Char × List Char × List Char) :=
  match splitFirst ['\x7b'] p with
  | none => none
  | some (before, r) =>
    match splitFirst ['\x7d'] r with
    | none => none
    | some (content, after) => some (before, content, after)

/-! ## The zod-router copy of the algorithm (`zod-router.ts` lines 235-421) -/

namespace ZodRouter

/-- `IncrementWildcard` (lines 403-421): increment a string-typed count,
saturating at `"10"`. -/
def IncrementWildcard (t : List Char) : List Char :=
  if t = ['0'] then ['1']
  else if t = ['1'] then ['2']
  else if t = ['2'] then ['3']
  else if t = ['3'] then ['4']
  else if t = ['4'] then ['5']
  else if t = ['5'] then ['6']
  else if t = ['6'] then ['7']
  else if t = ['7'] then ['8']
  else if t = ['8'] then ['9']
  else ['1', '0']

/-- Recursion core of `CountWildcards` (lines 393-398): split at the first
`*` and recurse on the remainder with an incremented count.  The fuel
argument embeds the type-checker's recursion bound; each step removes at
least one character, so `length + 1` fuel is never exhausted. -/
def countWildcardsGo : Nat → List Char → List Char → List Char
  | 0, _, count => count
  | n + 1, path, count =>
    match splitFirst ['*'] path with
    | some (_, rest) => countWildcardsGo n rest (IncrementWildcard count)
    | none => count

/-- `CountWildcards` (lines 393-398). -/
def CountWildcards (path count : List Char) : List Char :=
  countWildcardsGo (path.length + 1) path count

/-- `ExtractSingleParam` (lines 292-340): ordered first-match rule list for
the text after a `:` sigil. -/
def ExtractSingleParam (rest : List Char) : ParamMap :=
  if let some (name, _, _) := matchConstraint rest then [(name, .str)]
  else if let some (name, _) := splitFirst ['-', ':'] rest then [(name, .str)]
  else if let some (name, _) := splitFirst ['.', ':'] rest then [(name, .str)]
  else if let some (name, _) := splitFirst ['?', '/'] rest then [(name, .optStr)]
  else if let some (name, _) := splitFirst ['?', '-'] rest then [(name, .optStr)]
  else if let some (name, _) := splitFirst ['?', '.'] rest then [(name, .optStr)]
  else if let some (name, _) := splitFirst ['?', '#'] rest then [(name, .optStr)]
  else if let some (name, _) := splitFirst ['?', ':'] rest then [(name, .optStr)]
  else if let some (name, _) := splitFirst ['/'] rest then [(name, .str)]
  else if let some (name, _) := splitFirst ['-'] rest then [(name, .str)]
  else if let some (name, _) := splitFirst ['.'] rest then [(name, .str)]
  else if let some (name, _) := splitFirst ['#'] rest then [(name, .str)]
  else if let some (name, _) := splitFirst [':'] rest then [(name, .str)]
  else if let some (name, _) := splitFirst ['+'] rest then [(name, .strList)]
  else if let some (name, _) := splitFirst ['*'] rest then [(name, .optStrList)]
  else if let some (name, _) := splitFirst ['?'] rest then [(name, .optStr)]
  else if rest = [] then []
  else if let some name := dropTail ['?'] rest then [(name, .optStr)]
  else if let some name := dropTail ['+'] rest then [(name, .strList)]
  else if let some name := dropTail ['*'] rest then [(name, .optStrList)]
  else [(rest, .str)]

/-- Rule chain of `RemoveFirstParam` (lines 350-387), applied to the text
`before`/`rest` around the first `:` sigil. -/
def removeFirstParamRest (before rest : List Char) : List Char :=
  if let some (_, _, after) := matchConstraint rest then before ++ after
    else if let some (_, after) := splitFirst ['-', ':'] rest then
      before ++ '-' :: ':' :: after
    else if let some (_, after) := splitFirst ['.', ':'] rest then
      before ++ '.' :: ':' :: after
    else if let some (_, after) := splitFirst ['?', '/'] rest then
      before ++ '/' :: after
    else if let some (_, after) := splitFirst ['?', '-'] rest then before ++ after
    else if let some (_, after) := splitFirst ['?', '.'] rest then before ++ after
    else if let some (_, after) := splitFirst ['?', '#'] rest then before ++ after
    else if let some (_, after) := splitFirst ['?', ':'] rest then
      before ++ ':' :: after
    else if let some (_, after) := splitFirst ['/'] rest then
      before ++ '/' :: after
    else if let some (_, after) := splitFirst ['-'] rest then before ++ after
    else if let some (_, after) := splitFirst ['.'] rest then before ++ after
    else if let some (_, after) := splitFirst ['#'] rest then before ++ after
    else if let some (_, after) := splitFirst [':'] rest then
      before ++ ':' :: after
    else if let some (_, after) := splitFirst ['+'] rest then before ++ after
    else if let some (_, after) := splitFirst ['*'] rest then before ++ after
    else if let some (_, after) := splitFirst ['?'] rest then before ++ after
    else before

/-- `RemoveFirstParam` (lines 348-388): consume exactly the first `:`
parameter, keeping any separator needed by the next scan step. -/
def RemoveFirstParam (path : List Char) : List Char :=
  match splitFirst [':'] path with
  | none => path
  | some (before, rest) => removeFirstParamRest before rest

/-- `ExtractOptionalParam` (lines 275-284): one optional parameter from
brace content; the final `Rest extends `${infer P}`` arm always matches,
so the trailing `\x7b\x7d` arm of the source is unreachable. -/
def ExtractOptionalParam (rest : List Char) : ParamMap :=
  if let some (name, _) := splitFirst ['/'] rest then [(name, .optStr)]
  else if let some (name, _) := splitFirst ['-'] rest then [(name, .optStr)]
  else if let some (name, _) := splitFirst ['.'] rest then [(name, .optStr)]
  else [(rest, .optStr)]

/-- `ExtractOptionalSegment` (lines 262-270): classify the content of a
brace-delimited optional segment. -/
def ExtractOptionalSegment (content : List Char) : ParamMap :=
  match content with
  | '/' :: ':' :: rest => ExtractOptionalParam rest
  | '.' :: ':' :: rest => ExtractOptionalParam rest
  | _ =>
    match splitFirst [':'] content with
    | some (_, rest) => ExtractOptionalParam rest
    | none => []

/-- Recursion core of `ExtractParams` (lines 242-256): braces first, then
`:` parameters, then anonymous wildcards.  Fuel embeds the type-checker's
recursion bound; every recursive call is on a strictly shorter string
(proved below), so fuel `length + 1` is never exhausted. -/
def extractParamsGo : Nat → List Char → ParamMap
  | 0, _ => []
  | n + 1, path =>
    if let some (before, content, after) := matchBrace path then
      ExtractOptionalSegment content ++ extractParamsGo n (before ++ after)
    else if let some (_, rest) := splitFirst [':'] path then
      ExtractSingleParam rest ++ extractParamsGo n (RemoveFirstParam path)
    else if let some (before, after) := splitFirst ['*'] path then
      (CountWildcards before ['0'], ParamTy.str) :: extractParamsGo n after
    else []

/-- `ExtractParams` (lines 242-256). -/
def ExtractParams (path : List Char) : ParamMap :=
  extractParamsGo (path.length + 1) path

/-- The static type of the `Path` type argument: either a concrete string
literal or the general (non-literal) `string` type. -/
inductive PathInput where
  | generic
  | lit (p : List Char)

/-- The result of `ExtractRouteParams`: the open `Record<string, string>`
fallback, or a concrete parameter map. -/
inductive ParamsResult where
  | fallback
  | params (m : ParamMap)
deriving DecidableEq

/-- `ExtractRouteParams` (lines 235-237): `string extends Path` selects the
fallback; a literal path runs `ExtractParams`. -/
def ExtractRouteParams : PathInput → ParamsResult
  | .generic => .fallback
  | .lit p => .params (ExtractParams p)

end ZodRouter

/-! ## The schema-router copy of the algorithm (lines 1680-1915)

Identical to the zod-router copy except that `ExtractParams` adds named
wildcards (`*name`, path-to-regexp v8) and `ExtractOptionalSegment` adds
optional named wildcards inside braces. -/

namespace SchemaRouter

/-- `IncrementWildcard` (lines 1897-1915), identical to the zod-router
copy. -/
def IncrementWildcard (t : List Char) : List Char :=
  if t = ['0'] then ['1']
  else if t = ['1'] then ['2']
  else if t = ['2'] then ['3']
  else if t = ['3'] then ['4']
  else if t = ['4'] then ['5']
  else if t = ['5'] then ['6']
  else if t = ['6'] then ['7']
  else if t = ['7'] then ['8']
  else if t = ['8'] then ['9']
  else ['1', '0']

/-- Recursion core of `CountWildcards` (lines 1887-1892). -/
def countWildcardsGo : Nat → List Char → List Char → List Char
  | 0, _, count => count
  | n + 1, path, count =>
    match splitFirst ['*'] path with
    | some (_, rest) => countWildcardsGo n rest (IncrementWildcard count)
    | none => count

/-- `CountWildcards` (lines 1887-1892). -/
def CountWildcards (path count : List Char) : List Char :=
  countWildcardsGo (path.length + 1) path count

/-- `ExtractSingleParam` (lines 1786-1834), identical to the zod-router
copy. -/
def ExtractSingleParam (rest : List Char) : ParamMap :=
  if let some (name, _, _) := matchConstraint rest then [(name, .str)]
  else if let some (name, _) := splitFirst ['-', ':'] rest then [(name, .str)]
  else if let some (name, _) := splitFirst ['.', ':'] rest then [(name, .str)]
  else if let some (name, _) := splitFirst ['?', '/'] rest then [(name, .optStr)]
  else if let some (name, _) := splitFirst ['?', '-'] rest then [(name, .optStr)]
  else if let some (name, _) := splitFirst ['?', '.'] rest then [(name, .optStr)]
  else if let some (name, _) := splitFirst ['?', '#'] rest then [(name, .optStr)]
  else if let some (name, _) := splitFirst ['?', ':'] rest then [(name, .optStr)]
  else if let some (name, _) := splitFirst ['/'] rest then [(name, .str)]
  else if let some (name, _) := splitFirst ['-'] rest then [(name, .str)]
  else if let some (name, _) := splitFirst ['.'] rest then [(name, .str)]
  else if let some (name, _) := splitFirst ['#'] rest then [(name, .str)]
  else if let some (name, _) := splitFirst [':'] rest then [(name, .str)]
  else if let some (name, _) := splitFirst ['+'] rest then [(name, .strList)]
  else if let some (name, _) := splitFirst ['*'] rest then [(name, .optStrList)]
  else if let some (name, _) := splitFirst ['?'] rest then [(name, .optStr)]
  else if rest = [] then []
  else if let some name := dropTail ['?'] rest then [(name, .optStr)]
  else if let some name := dropTail ['+'] rest then [(name, .strList)]
  else if let some name := dropTail ['*'] rest then [(name, .optStrList)]
  else [(rest, .str)]

/-- `RemoveFirstParam` (lines 1842-1882), identical to the zod-router
copy. -/
def RemoveFirstParam (path : List Char) : List Char :=
  match splitFirst [':'] path with
  | none => path
  | some (before, rest) =>
    if let some (_, _, after) := matchConstraint rest then before ++ after
    else if let some (_, after) := splitFirst ['-', ':'] rest then
      before ++ '-' :: ':' :: after
    else if let some (_, after) := splitFirst ['.', ':'] rest then
      before ++ '.' :: ':' :: after
    else if let some (_, after) := splitFirst ['?', '/'] rest then
      before ++ '/' :: after
    else if let some (_, after) := splitFirst ['?', '-'] rest then before ++ after
    else if let some (_, after) := splitFirst ['?', '.'] rest then before ++ after
    else if let some (_, after) := splitFirst ['?', '#'] rest then before ++ after
    else if let some (_, after) := splitFirst ['?', ':'] rest then
      before ++ ':' :: after
    else if let some (_, after) := splitFirst ['/'] rest then
      before ++ '/' :: after
    else if let some (_, after) := splitFirst ['-'] rest then before ++ after
    else if let some (_, after) := splitFirst ['.'] rest then before ++ after
    else if let some (_, after) := splitFirst ['#'] rest then before ++ after
    else if let some (_, after) := splitFirst [':'] rest then
      before ++ ':' :: after
    else if let some (_, after) := splitFirst ['+'] rest then before ++ after
    else if let some (_, after) := splitFirst ['*'] rest then before ++ after
    else if let some (_, after) := splitFirst ['?'] rest then before ++ after
    else before

/-- `ExtractOptionalParam` (lines 1769-1778), identical to the zod-router
copy. -/
def ExtractOptionalParam (rest : List Char) : ParamMap :=
  if let some (name, _) := splitFirst ['/'] rest then [(name, .optStr)]
  else if let some (name, _) := splitFirst ['-'] rest then [(name, .optStr)]
  else if let some (name, _) := splitFirst ['.'] rest then [(name, .optStr)]
  else [(rest, .optStr)]

/-- `ExtractOptionalSegment` (lines 1743-1764): adds optional named
wildcards `\x7b*name\x7d` and `\x7b/*name\x7d`; a `/`-prefixed content is
fully handled by its own arm, so the source's later `/:` arm (line 1758)
is unreachable and the `.:` and `${_Path}:${Rest}` arms only see content
not starting with `*` or `/`. -/
def ExtractOptionalSegment (content : List Char) : ParamMap :=
  match content with
  | '*' :: name => if name = [] then [] else [(name, .optStrList)]
  | '/' :: rest =>
    match rest with
    | '*' :: name => if name = [] then [] else [(name, .optStrList)]
    | ':' :: r => ExtractOptionalParam r
    | _ => []
  | '.' :: ':' :: rest => ExtractOptionalParam rest
  | _ =>
    match splitFirst [':'] content with
    | some (_, rest) => ExtractOptionalParam rest
    | none => []

/-- Recursion core of `ExtractParams` (lines 1687-1737): braces, then `:`
parameters, then named wildcards `*name` delimited by `/`, `-`, `.`, `#`
or `:`, then a trailing `*name`, then the legacy anonymous-wildcard arm.
The trailing-`*name` template always matches once a `*` is present, so
the source's final anonymous arm (lines 1731-1735) is unreachable; the
`:`-delimited arm is likewise dead because the `:` dispatcher runs first.
Both are kept in source order. -/
def extractParamsGo : Nat → List Char → ParamMap
  | 0, _ => []
  | n + 1, path =>
    if let some (before, content, after) := matchBrace path then
      ExtractOptionalSegment content ++ extractParamsGo n (before ++ after)
    else if let some (_, rest) := splitFirst [':'] path then
      ExtractSingleParam rest ++ extractParamsGo n (RemoveFirstParam path)
    else if let some (before, r) := splitFirst ['*'] path then
      if let some (name, after) := splitFirst ['/'] r then
        (if name = [] then [(CountWildcards before ['0'], ParamTy.str)]
         else [(name, ParamTy.strList)]) ++ extractParamsGo n ('/' :: after)
      else if let some (name, after) := splitFirst ['-'] r then
        (if name = [] then [(CountWildcards before ['0'], ParamTy.str)]
         else [(name, ParamTy.strList)]) ++ extractParamsGo n ('-' :: after)
      else if let some (name, after) := splitFirst ['.'] r then
        (if name = [] then [(CountWildcards before ['0'], ParamTy.str)]
         else [(name, ParamTy.strList)]) ++ extractParamsGo n ('.' :: after)
      else if let some (name, after) := splitFirst ['#'] r then
        (if name = [] then [(CountWildcards before ['0'], ParamTy.str)]
         else [(name, ParamTy.strList)]) ++ extractParamsGo n ('#' :: after)
      else if let some (name, after) := splitFirst [':'] r then
        (if name = [] then [(CountWildcards before ['0'], ParamTy.str)]
         else [(name, ParamTy.strList)]) ++ extractParamsGo n (':' :: after)
      else
        (if r = [] then [(CountWildcards before ['0'], ParamTy.str)]
         else [(r, ParamTy.strList)]) ++ extractParamsGo n []
    else []

/-- `ExtractParams` (lines 1687-1737). -/
def ExtractParams (path : List Char) : ParamMap :=
  extractParamsGo (path.length + 1) path

/-- `ExtractRouteParams` (lines 1680-1682): `string extends Path` selects
the fallback; a literal path runs `ExtractParams`. -/
def ExtractRouteParams : ZodRouter.PathInput → ZodRouter.ParamsResult
  | .generic => .fallback
  | .lit p => .params (ExtractParams p)

end SchemaRouter

/-- Number of `*` markers occurring in a pattern (the quantity the
Wildcard Counter is specified to compute). -/
def countStars (p : List Char) : Nat := p.count '*'

/-- The decimal numeral, clamped at ten, that the `IncrementWildcard`
chain can represent. -/
def natToCount (n : Nat) : List Char :=
  if n < 10 then [Char.ofNat (48 + n)] else ['1', '0']

/-! ## Lemmas about the embedding -/

theorem dropStart_eq {sep s r : List Char} (h : dropStart sep s = some r) :
    s = sep ++ r := by
  induction sep generalizing s with
  | nil => simpa [dropStart] using h
  | cons c cs ih =>
    cases s with
    | nil => simp [dropStart] at h
    | cons d ds =>
      by_cases hc : c = d
      · subst hc
        simp only [dropStart, if_pos rfl] at h
        simpa using ih h
      · simp [dropStart, hc] at h

theorem splitFirst_eq {sep s a b : List Char}
    (h : splitFirst sep s = some (a, b)) : s = a ++ sep ++ b := by
  induction s generalizing a b with
  | nil =>
    simp only [splitFirst, Option.map_eq_some'] at h
    obtain ⟨r, hr, hab⟩ := h
    have h1 : a = [] := by simpa using congrArg Prod.fst hab.symm
    have h2 : b = r := by simpa using congrArg Prod.snd hab.symm
    subst h1; subst h2
    simpa using dropStart_eq hr
  | cons c rest ih =>
    simp only [splitFirst] at h
    cases hd : dropStart sep (c :: rest) with
    | some r =>
      rw [hd] at h
      have h1 : a = [] := by simpa using congrArg Prod.fst (Option.some.inj h).symm
      have h2 : b = r := by simpa using congrArg Prod.snd (Option.some.inj h).symm
      subst h1; subst h2
      simpa using dropStart_eq hd
    | none =>
      rw [hd] at h
      simp only [Option.map_eq_some'] at h
      obtain ⟨⟨a', b'⟩, hp, hab⟩ := h
      have h1 : a = c :: a' := by simpa using congrArg Prod.fst hab.symm
      have h2 : b = b' := by simpa using congrArg Prod.snd hab.symm
      subst h1; subst h2
      simpa using ih hp

theorem splitFirst_length {sep s a b : List Char}
    (h : splitFirst sep s = some (a, b)) :
    s.length = a.length + sep.length + b.length := by
  have := splitFirst_eq h
  subst this
  simp [List.length_append]
  omega

theorem splitFirst_single_none {c : Char} {s : List Char} (h : c ∉ s) :
    splitFirst [c] s = none := by
  induction s with
  | nil => simp [splitFirst, dropStart]
  | cons d ds ih =>
    have hcd : c ≠ d := fun he => h (he ▸ List.mem_cons_self d ds)
    have hds : c ∉ ds := fun hm => h (List.mem_cons_of_mem d hm)
    simp [splitFirst, dropStart, hcd, ih hds]

theorem splitFirst_single_isSome {c : Char} {s : List Char} (h : c ∈ s) :
    ∃ a b, splitFirst [c] s = some (a, b) := by
  induction s with
  | nil => simp at h
  | cons d ds ih =>
    by_cases hcd : c = d
    · exact ⟨[], ds, by simp [splitFirst, dropStart, hcd]⟩
    · have hds : c ∈ ds := by
        rcases List.mem_cons.mp h with h1 | h1
        · exact absurd h1 hcd
        · exact h1
      obtain ⟨a, b, hab⟩ := ih hds
      exact ⟨d :: a, b, by simp [splitFirst, dropStart, hcd, hab]⟩

theorem splitFirst_first {c : Char} {a b : List Char} (h : c ∉ a) :
    splitFirst [c] (a ++ c :: b) = some (a, b) := by
  induction a with
  | nil => simp [splitFirst, dropStart]
  | cons d ds ih =>
    have hcd : c ≠ d := fun he => h (he ▸ List.mem_cons_self d ds)
    have hds : c ∉ ds := fun hm => h (List.mem_cons_of_mem d hm)
    simp [splitFirst, dropStart, hcd, ih hds]

theorem matchConstraint_eq {s name c after : List Char}
    (h : matchConstraint s = some (name, c, after)) :
    s = name ++ '(' :: (c ++ ')' :: after) := by
  unfold matchConstraint at h
  cases h1 : splitFirst ['('] s with
  | none => simp [h1] at h
  | some pr =>
    obtain ⟨n1, r1⟩ := pr
    simp only [h1] at h
    cases h2 : splitFirst [')'] r1 with
    | none => simp [h2] at h
    | some pr2 =>
      obtain ⟨c2, a2⟩ := pr2
      simp only [h2] at h
      obtain ⟨h3, h4, h5⟩ : n1 = name ∧ c2 = c ∧ a2 = after := by
        simpa using h
      subst h3; subst h4; subst h5
      have e1 := splitFirst_eq h1
      have e2 := splitFirst_eq h2
      subst e2
      simpa using e1

theorem matchBrace_eq {p b c a : List Char}
    (h : matchBrace p = some (b, c, a)) :
    p = b ++ '\x7b' :: (c ++ '\x7d' :: a) := by
  unfold matchBrace at h
  cases h1 : splitFirst ['\x7b'] p with
  | none => simp [h1] at h
  | some pr =>
    obtain ⟨b1, r1⟩ := pr
    simp only [h1] at h
    cases h2 : splitFirst ['\x7d'] r1 with
    | none => simp [h2] at h
    | some pr2 =>
      obtain ⟨c2, a2⟩ := pr2
      simp only [h2] at h
      obtain ⟨h3, h4, h5⟩ : b1 = b ∧ c2 = c ∧ a2 = a := by
        simpa using h
      subst h3; subst h4; subst h5
      have e1 := splitFirst_eq h1
      have e2 := splitFirst_eq h2
      subst e2
      simpa using e1

theorem matchConstraint_none {s : List Char} (h : '(' ∉ s) :
    matchConstraint s = none := by
  unfold matchConstraint
  rw [splitFirst_single_none h]

theorem matchBrace_none {p : List Char} (h : '\x7b' ∉ p) :
    matchBrace p = none := by
  unfold matchBrace
  rw [splitFirst_single_none h]

example : ZodRouter.ExtractParams "/users/:userId".data
    = [("userId".data, ParamTy.str)] := by decide
example : ZodRouter.ExtractParams "/flights/:from-:to".data
    = [("from".data, ParamTy.str), ("to".data, ParamTy.str)] := by decide
example : ZodRouter.ExtractParams "/a/*/b/*".data
    = [(['0'], ParamTy.str), (['0'], ParamTy.str)] := by decide

example : SchemaRouter.ExtractParams "/a/*/b/*".data
    = [(['0'], ParamTy.str), (['0'], ParamTy.str)] := by decide
example : SchemaRouter.ExtractParams "/files/*splat".data
    = [("splat".data, ParamTy.strList)] := by decide
example : SchemaRouter.ExtractOptionalSegment "/*name".data
    = [("name".data, ParamTy.optStrList)] := by decide

theorem splitFirst_not_mem {c : Char} {s a b : List Char}
    (h : splitFirst [c] s = some (a, b)) : c ∉ a := by
  induction s generalizing a b with
  | nil => simp [splitFirst, dropStart] at h
  | cons d ds ih =>
    rw [splitFirst] at h
    by_cases hcd : c = d
    · have hd : dropStart [c] (d :: ds) = some ds := by simp [dropStart, hcd]
      rw [hd] at h
      have ha : a = [] := by simpa using congrArg Prod.fst (Option.some.inj h).symm
      simp [ha]
    · have hd : dropStart [c] (d :: ds) = none := by simp [dropStart, hcd]
      rw [hd] at h
      simp only [Option.map_eq_some'] at h
      obtain ⟨⟨a', b'⟩, hp, he⟩ := h
      have ha : a = d :: a' := by simpa using congrArg Prod.fst he.symm
      subst ha
      intro hmem
      rcases List.mem_cons.mp hmem with h1 | h1
      · exact hcd h1
      · exact ih hp h1


theorem incrementWildcard_natToCount (n : Nat) :
    ZodRouter.IncrementWildcard (natToCount n) = natToCount (n + 1) := by
  by_cases h : n < 10
  · interval_cases n <;> decide
  · have h1 : ¬ n + 1 < 10 := by omega
    simp only [natToCount, if_neg h, if_neg h1]
    decide

theorem countWildcardsGo_spec (n : Nat) :
    ∀ p : List Char, p.length < n → ∀ k : Nat,
      ZodRouter.countWildcardsGo n p (natToCount k)
        = natToCount (k + countStars p) := by
  induction n with
  | zero => intro p hp; omega
  | succ m ih =>
    intro p hp k
    cases hs : splitFirst ['*'] p with
    | none =>
      have hmem : '*' ∉ p := by
        by_contra hc
        obtain ⟨a, b, hab⟩ := splitFirst_single_isSome hc
        rw [hab] at hs
        exact Option.noConfusion hs
      have h0 : countStars p = 0 := by
        simp [countStars, List.count_eq_zero.mpr hmem]
      simp only [ZodRouter.countWildcardsGo, hs, h0, Nat.add_zero]
    | some pr =>
      obtain ⟨a, b⟩ := pr
      have hdecomp := splitFirst_eq hs
      have hnot := splitFirst_not_mem hs
      have hcount : countStars p = countStars b + 1 := by
        subst hdecomp
        simp [countStars, List.count_append, List.count_cons,
          List.count_eq_zero.mpr hnot]
      have hlen := splitFirst_length hs
      simp only [List.length_singleton] at hlen
      have hb : b.length < m := by omega
      have hstep : ZodRouter.countWildcardsGo (m + 1) p (natToCount k)
          = ZodRouter.countWildcardsGo m b
              (ZodRouter.IncrementWildcard (natToCount k)) := by
        simp only [ZodRouter.countWildcardsGo, hs]
      rw [hstep, incrementWildcard_natToCount, ih b hb (k + 1), hcount]
      congr 1
      omega

theorem zrExtractOptionalParamMem {r k : List Char} {t : ParamTy}
    (h : (k, t) ∈ ZodRouter.ExtractOptionalParam r) : t = ParamTy.optStr := by
  unfold ZodRouter.ExtractOptionalParam at h
  repeat' split at h
  all_goals simpa using congrArg Prod.snd (List.mem_singleton.mp h)

theorem zrExtractOptionalSegmentMem {content k : List Char} {t : ParamTy}
    (h : (k, t) ∈ ZodRouter.ExtractOptionalSegment content) :
    t = ParamTy.optStr := by
  unfold ZodRouter.ExtractOptionalSegment at h
  repeat' split at h
  all_goals first
    | exact absurd h (List.not_mem_nil _)
    | exact zrExtractOptionalParamMem h

theorem srExtractOptionalParamMem {r k : List Char} {t : ParamTy}
    (h : (k, t) ∈ SchemaRouter.ExtractOptionalParam r) : t = ParamTy.optStr := by
  unfold SchemaRouter.ExtractOptionalParam at h
  repeat' split at h
  all_goals simpa using congrArg Prod.snd (List.mem_singleton.mp h)

theorem srExtractOptionalSegmentMem {content k : List Char} {t : ParamTy}
    (h : (k, t) ∈ SchemaRouter.ExtractOptionalSegment content) :
    t = ParamTy.optStr ∨ t = ParamTy.optStrList := by
  unfold SchemaRouter.ExtractOptionalSegment at h
  repeat' split at h
  all_goals first
    | exact absurd h (List.not_mem_nil _)
    | exact Or.inl (srExtractOptionalParamMem h)
    | exact Or.inr (by simpa using congrArg Prod.snd (List.mem_singleton.mp h))

theorem removeFirstParamRest_length (b r : List Char) :
    (ZodRouter.removeFirstParamRest b r).length < b.length + 1 + r.length := by
  unfold ZodRouter.removeFirstParamRest
  repeat' split
  all_goals try
    (rename_i heq
     first
       | (have hd := matchConstraint_eq heq
          subst hd
          simp only [List.length_append, List.length_cons]
          omega)
       | (have hd := splitFirst_length heq
          simp only [List.length_cons, List.length_singleton,
            List.length_nil] at hd
          simp only [List.length_append, List.length_cons]
          omega))
  all_goals omega

/-! ## Claims -/

/-- C1: for each required pattern of spec section 8 items 1-4 and 6-8, the
zod-router `ExtractRouteParams` pipeline yields exactly the listed mapping
and nothing more. -/
theorem c1_section8_patterns :
    ZodRouter.ExtractParams "/users/:userId".data
      = [("userId".data, ParamTy.str)] ∧
    ZodRouter.ExtractParams "/users/:userId/books/:bookId".data
      = [("userId".data, ParamTy.str), ("bookId".data, ParamTy.str)] ∧
    ZodRouter.ExtractParams "/flights/:from-:to".data
      = [("from".data, ParamTy.str), ("to".data, ParamTy.str)] ∧
    ZodRouter.ExtractParams "/plantae/:genus.:species".data
      = [("genus".data, ParamTy.str), ("species".data, ParamTy.str)] ∧
    ZodRouter.ExtractParams "/posts/:year/:month?".data
      = [("year".data, ParamTy.str), ("month".data, ParamTy.optStr)] ∧
    ZodRouter.ExtractParams "/files/:path+".data
      = [("path".data, ParamTy.strList)] ∧
    ZodRouter.ExtractParams "/search/:terms*".data
      = [("terms".data, ParamTy.optStrList)] := by
  refine ⟨by decide, by decide, by decide, by decide, by decide, by decide,
    by decide⟩

/-- C2: evaluation of the code at the wildcard patterns.  `"/files/*"`
yields key `"0"` as claimed, but in `"/a/*/b/*"` the second wildcard is
also keyed `"0"`, not `"1"`: `CountWildcards` is applied to the text
before the first `*` of the remaining suffix, which never contains a `*`,
so every anonymous wildcard gets index `"0"`.  This contradicts the
claim, the spec, and the source's own doc comment and README (`/a/*/b/*`
→ `{ "0": string; "1": string }`). -/
theorem c2_wildcard_numbering :
    ZodRouter.ExtractParams "/files/*".data = [(['0'], ParamTy.str)] ∧
    ZodRouter.ExtractParams "/a/*/b/*".data
      = [(['0'], ParamTy.str), (['0'], ParamTy.str)] ∧
    ZodRouter.CountWildcards "/b/".data ['0'] = ['0'] ∧
    SchemaRouter.ExtractParams "/a/*/b/*".data
      = [(['0'], ParamTy.str), (['0'], ParamTy.str)] := by
  refine ⟨by decide, by decide, by decide, by decide⟩

/-- C3: a regex-constrained parameter `:name(constraint)` contributes
exactly `\x7b name: string \x7d`, for every constraint text (which may
contain `+`, `*`, `?` or delimiter characters) and every trailing text;
in particular `"/user/:id(\d+)"` infers `\x7b id: string \x7d`. -/
theorem c3_regex_constraint (name constraint after : List Char) :
    ('(' ∉ name →
      ZodRouter.ExtractSingleParam (name ++ '(' :: (constraint ++ ')' :: after))
        = [(name, ParamTy.str)]) ∧
    ZodRouter.ExtractParams "/user/:id(\\d+)".data
      = [("id".data, ParamTy.str)] := by
  refine ⟨fun h => ?_, by decide⟩
  have h1 : splitFirst ['('] (name ++ '(' :: (constraint ++ ')' :: after))
      = some (name, constraint ++ ')' :: after) := splitFirst_first h
  obtain ⟨x, y, hxy⟩ :=
    splitFirst_single_isSome (c := ')') (s := constraint ++ ')' :: after)
      (by simp)
  have hm : matchConstraint (name ++ '(' :: (constraint ++ ')' :: after))
      = some (name, x, y) := by
    unfold matchConstraint
    simp only [h1, hxy]
  simp only [ZodRouter.ExtractSingleParam, hm]

/-- C3 witness: the general statement applied at `:id(\d+)`. -/
theorem c3_regex_constraint_witness :
    ZodRouter.ExtractSingleParam
        ("id".data ++ '(' :: ("\\d+".data ++ ')' :: []))
      = [("id".data, ParamTy.str)] :=
  (c3_regex_constraint "id".data "\\d+".data []).1 (by decide)

/-- C4: every key contributed by the Optional-Segment Classifier is
optional — `string`-or-absent in the zod-router copy, and additionally
possibly `string[]`-or-absent (wildcard forms) in the schema-router copy —
regardless of the brace content; in particular
`"/api\x7b/:version\x7d/users"` infers `\x7b version?: string \x7d`. -/
theorem c4_optional_segment (content k : List Char) (t : ParamTy) :
    ((k, t) ∈ ZodRouter.ExtractOptionalSegment content → t = ParamTy.optStr) ∧
    ((k, t) ∈ SchemaRouter.ExtractOptionalSegment content
        → (t = ParamTy.optStr ∨ t = ParamTy.optStrList)) ∧
    ZodRouter.ExtractParams "/api\x7b/:version\x7d/users".data
      = [("version".data, ParamTy.optStr)] ∧
    SchemaRouter.ExtractParams "/api\x7b/:version\x7d/users".data
      = [("version".data, ParamTy.optStr)] :=
  ⟨fun h => zrExtractOptionalSegmentMem h,
   fun h => srExtractOptionalSegmentMem h,
   by decide, by decide⟩

/-- C4 witness: the general statement applied to content `/:version` and
the key it contributes. -/
theorem c4_optional_segment_witness : ParamTy.optStr = ParamTy.optStr :=
  (c4_optional_segment "/:version".data "version".data ParamTy.optStr).1
    (by decide)

/-- C5: in the schema-router copy, a brace segment whose content is the
named-wildcard form `*name` (or `/*name`) with non-empty name contributes
exactly `\x7b name?: string[] \x7d`, while an anonymous `*` (or `/*`)
inside the braces contributes nothing. -/
theorem c5_named_wildcard (name : List Char) :
    (name ≠ [] →
      SchemaRouter.ExtractOptionalSegment ('*' :: name)
          = [(name, ParamTy.optStrList)] ∧
      SchemaRouter.ExtractOptionalSegment ('/' :: '*' :: name)
          = [(name, ParamTy.optStrList)]) ∧
    SchemaRouter.ExtractOptionalSegment ['*'] = [] ∧
    SchemaRouter.ExtractOptionalSegment ['/', '*'] = [] := by
  refine ⟨fun h => ⟨?_, ?_⟩, by decide, by decide⟩
  · simp [SchemaRouter.ExtractOptionalSegment, h]
  · simp [SchemaRouter.ExtractOptionalSegment, h]

/-- C5 witness: the general statement applied at name `name`. -/
theorem c5_named_wildcard_witness :
    SchemaRouter.ExtractOptionalSegment ('*' :: "name".data)
        = [("name".data, ParamTy.optStrList)] ∧
    SchemaRouter.ExtractOptionalSegment ('/' :: '*' :: "name".data)
        = [("name".data, ParamTy.optStrList)] :=
  (c5_named_wildcard "name".data).1 (by decide)

/-- C6: a pattern whose static type is the general non-literal `string`
short-circuits both variants of `ExtractRouteParams` to the open fallback
map, while every literal pattern runs the recursive algorithm. -/
theorem c6_generic_fallback :
    ZodRouter.ExtractRouteParams ZodRouter.PathInput.generic
        = ZodRouter.ParamsResult.fallback ∧
    SchemaRouter.ExtractRouteParams ZodRouter.PathInput.generic
        = ZodRouter.ParamsResult.fallback ∧
    (∀ p, ZodRouter.ExtractRouteParams (ZodRouter.PathInput.lit p)
        = ZodRouter.ParamsResult.params (ZodRouter.ExtractParams p)) ∧
    (∀ p, SchemaRouter.ExtractRouteParams (ZodRouter.PathInput.lit p)
        = ZodRouter.ParamsResult.params (SchemaRouter.ExtractParams p)) :=
  ⟨rfl, rfl, fun _ => rfl, fun _ => rfl⟩

/-- C7: the inference is total (the embedded functions are total Lean
functions over all strings), and any pattern containing none of the
markers `\x7b`, `:`, `*` — in particular `""` and `"/health"` — yields
exactly the empty mapping; the empty classifier input also contributes
the empty mapping. -/
theorem c7_totality (p : List Char) :
    (('\x7b' ∉ p ∧ ':' ∉ p ∧ '*' ∉ p) → ZodRouter.ExtractParams p = []) ∧
    ZodRouter.ExtractParams [] = [] ∧
    ZodRouter.ExtractParams "/health".data = [] ∧
    ZodRouter.ExtractSingleParam [] = [] := by
  refine ⟨fun h => ?_, by decide, by decide, by decide⟩
  obtain ⟨h1, h2, h3⟩ := h
  have hb := matchBrace_none h1
  have hc := splitFirst_single_none h2
  have hs := splitFirst_single_none h3
  unfold ZodRouter.ExtractParams
  simp only [ZodRouter.extractParamsGo, hb, hc, hs]

/-- C7 witness: the general statement applied at `"/static"`. -/
theorem c7_totality_witness : ZodRouter.ExtractParams "/static".data = [] :=
  (c7_totality "/static".data).1 (by decide)

/-- C8: every recursive step of the scan strictly shortens the remaining
text: `RemoveFirstParam` on any pattern containing a `:` parameter, the
brace-segment removal `Before ++ After`, and the advance past a wildcard
all return strictly shorter strings, so the scan terminates. -/
theorem c8_termination (p : List Char) :
    (':' ∈ p → (ZodRouter.RemoveFirstParam p).length < p.length) ∧
    (∀ b c a, matchBrace p = some (b, c, a) → (b ++ a).length < p.length) ∧
    (∀ b a, splitFirst ['*'] p = some (b, a) → a.length < p.length) := by
  refine ⟨fun h => ?_, fun b c a h => ?_, fun b a h => ?_⟩
  · obtain ⟨b, r, hs⟩ := splitFirst_single_isSome h
    have hlen := splitFirst_length hs
    simp only [List.length_singleton] at hlen
    have hrest := removeFirstParamRest_length b r
    have hred : ZodRouter.RemoveFirstParam p
        = ZodRouter.removeFirstParamRest b r := by
      simp only [ZodRouter.RemoveFirstParam, hs]
    rw [hred]
    omega
  · have hd := matchBrace_eq h
    subst hd
    simp only [List.length_append, List.length_cons]
    omega
  · have hlen := splitFirst_length h
    simp only [List.length_singleton] at hlen
    omega

/-- C8 witness: the general statement applied at `"/users/:id"`. -/
theorem c8_termination_witness :
    (ZodRouter.RemoveFirstParam "/users/:id".data).length
      < "/users/:id".data.length :=
  (c8_termination "/users/:id".data).1 (by decide)

/-- C9: for every string, `CountWildcards` with initial count `"0"`
returns the decimal numeral of the number of `*` markers when that number
is at most ten, and the fixed sentinel `"10"` when it exceeds ten. -/
theorem c9_wildcard_counter (p : List Char) :
    (countStars p ≤ 10 →
      ZodRouter.CountWildcards p ['0'] = (Nat.repr (countStars p)).data) ∧
    (10 < countStars p → ZodRouter.CountWildcards p ['0'] = ['1', '0']) := by
  have hmain : ZodRouter.CountWildcards p ['0'] = natToCount (countStars p) := by
    have h0 : (['0'] : List Char) = natToCount 0 := by decide
    unfold ZodRouter.CountWildcards
    rw [h0, countWildcardsGo_spec (p.length + 1) p (by omega) 0]
    simp
  constructor
  · intro h
    rw [hmain]
    generalize countStars p = k at h ⊢
    interval_cases k <;> decide
  · intro h
    rw [hmain]
    have h1 : ¬ countStars p < 10 := by omega
    simp [natToCount, h1]

/-- C9 witness: the general statement applied at `"/a/*/b/*"`. -/
theorem c9_wildcard_counter_witness :
    ZodRouter.CountWildcards "/a/*/b/*".data ['0']
      = (Nat.repr (countStars "/a/*/b/*".data)).data :=
  (c9_wildcard_counter "/a/*/b/*".data).1 (by decide)

/-- C10: the zod-router and schema-router copies of the algorithm produce
identical parameter maps on every concrete pattern of spec section 8
items 1-10, 14 and 15. -/
theorem c10_variants_agree :
    ZodRouter.ExtractParams "/users/:userId".data
      = SchemaRouter.ExtractParams "/users/:userId".data ∧
    ZodRouter.ExtractParams "/users/:userId/books/:bookId".data
      = SchemaRouter.ExtractParams "/users/:userId/books/:bookId".data ∧
    ZodRouter.ExtractParams "/flights/:from-:to".data
      = SchemaRouter.ExtractParams "/flights/:from-:to".data ∧
    ZodRouter.ExtractParams "/plantae/:genus.:species".data
      = SchemaRouter.ExtractParams "/plantae/:genus.:species".data ∧
    ZodRouter.ExtractParams "/user/:id(\\d+)".data
      = SchemaRouter.ExtractParams "/user/:id(\\d+)".data ∧
    ZodRouter.ExtractParams "/posts/:year/:month?".data
      = SchemaRouter.ExtractParams "/posts/:year/:month?".data ∧
    ZodRouter.ExtractParams "/files/:path+".data
      = SchemaRouter.ExtractParams "/files/:path+".data ∧
    ZodRouter.ExtractParams "/search/:terms*".data
      = SchemaRouter.ExtractParams "/search/:terms*".data ∧
    ZodRouter.ExtractParams "/files/*".data
      = SchemaRouter.ExtractParams "/files/*".data ∧
    ZodRouter.ExtractParams "/a/*/b/*".data
      = SchemaRouter.ExtractParams "/a/*/b/*".data ∧
    ZodRouter.ExtractParams "/api\x7b/:version\x7d/users".data
      = SchemaRouter.ExtractParams "/api\x7b/:version\x7d/users".data ∧
    ZodRouter.ExtractParams "".data = SchemaRouter.ExtractParams "".data ∧
    ZodRouter.ExtractParams "/health".data
      = SchemaRouter.ExtractParams "/health".data ∧
    ZodRouter.ExtractParams "/assets\x7b/:version\x7d/:filename.:ext".data
      = SchemaRouter.ExtractParams "/assets\x7b/:version\x7d/:filename.:ext".data := by
  refine ⟨by decide, by decide, by decide, by decide, by decide, by decide,
    by decide, by decide, by decide, by decide, by decide, by decide,
    by decide, by decide⟩
